import Mathlib

/-!
Shallow embedding of the D++ snowflake / managed core
(src/include/dpp/snowflake.h, src/include/dpp/managed.h, src/src/dpp/snowflake.cpp).

A snowflake is a wrapper around a single `uint64_t value`; we model the
value as a `Nat` (values taken mod 2^64 wherever C++ arithmetic would wrap,
with explicit `< 2^64` bounds in theorems that speak about 64-bit inputs).
`std::string` inputs and outputs are modelled as `List Char`.

Textual construction uses `std::stoull(s)` (base 10): skip leading C-locale
whitespace, accept one optional sign character, read the longest leading run
of decimal digits (no digits: `std::invalid_argument`; magnitude above
`ULLONG_MAX`: `std::out_of_range`), negate modulo 2^64 when the sign was a
minus, and ignore everything after the digit run.  The snowflake constructor
catches both exceptions and stores 0.  We model `stoull` as an
`Option Nat`-valued function (`none` = an exception was thrown).
-/

/-- C-locale `isspace`: space, \t, \n, vertical tab, form feed, \r. -/
def is_cspace (c : Char) : Bool :=
  c.toNat = 32 || c.toNat = 9 || c.toNat = 10 || c.toNat = 11 || c.toNat = 12 || c.toNat = 13

/-- ASCII decimal digit test, as used by `strtoull` in base 10. -/
def is_ascii_digit (c : Char) : Bool :=
  48 ≤ c.toNat && c.toNat ≤ 57

/-- Leading-whitespace skip performed by `strtoull`. -/
def drop_leading_space (s : List Char) : List Char :=
  s.dropWhile is_cspace

/-- Optional single sign character accepted by `strtoull`; returns
(minus-sign-seen, remainder). -/
def split_sign : List Char → Bool × List Char
  | [] => (false, [])
  | c :: rest =>
    if c.toNat = 45 then (true, rest)
    else if c.toNat = 43 then (false, rest)
    else (false, c :: rest)

/-- The longest leading run of decimal digits. -/
def digit_run (s : List Char) : List Char :=
  s.takeWhile is_ascii_digit

/-- Value of a digit string, most significant digit first. -/
def digits_to_nat (ds : List Char) : Nat :=
  ds.foldl (fun a c => a * 10 + (c.toNat - 48)) 0

/-- `ULLONG_MAX`, the largest value `std::stoull` can return. -/
def UINT64_MAX : Nat := 2 ^ 64 - 1

/-- Model of `std::stoull(s)` in base 10: `none` when the call throws
(`std::invalid_argument` when no digits follow the optional whitespace and
sign, `std::out_of_range` when the digit run's magnitude exceeds
`ULLONG_MAX`), otherwise the parsed value, negated modulo 2^64 when a minus
sign was present. -/
def stoull (s : List Char) : Option Nat :=
  let t := drop_leading_space s
  let ds := digit_run (split_sign t).2
  if ds = [] then none
  else if UINT64_MAX < digits_to_nat ds then none
  else if (split_sign t).1 then some ((2 ^ 64 - digits_to_nat ds) % 2 ^ 64)
  else some (digits_to_nat ds)

/-- `dpp::snowflake_t<void>` (alias `dpp::snowflake`): a single
`uint64_t value`. -/
structure snowflake where
  value : Nat

/-- `snowflake_t<void>::snowflake_t(const uint64_t&)`: stores the integer
verbatim. -/
def snowflake.ofUInt64 (v : Nat) : snowflake := ⟨v⟩

/-- `snowflake_t<void>::snowflake_t(const std::string&)`: `stoull` wrapped in
try/catch, storing 0 on any exception. -/
def snowflake.ofString (s : List Char) : snowflake := ⟨(stoull s).getD 0⟩

/-- `snowflake::operator=(const std::string&)`: same parse-or-zero body as
the string constructor, replacing the current value. -/
def snowflake.assign_string (_old : snowflake) (s : List Char) : snowflake :=
  ⟨(stoull s).getD 0⟩

/-- `snowflake::operator=(const uint64_t&)`: stores the integer verbatim. -/
def snowflake.assign_u64 (_old : snowflake) (v : Nat) : snowflake := ⟨v⟩

/-- `snowflake_t<void>::empty()`: true iff the stored value is 0. -/
def snowflake.empty (s : snowflake) : Bool := s.value == 0

/-- `operator<(const snowflake_t&, const snowflake_t&)`:
`lhs.value < rhs.value`. -/
def snowflake.lt (lhs rhs : snowflake) : Bool := decide (lhs.value < rhs.value)

/-- `snowflake::operator==(const snowflake&)`: `other.value == value`. -/
def snowflake.eq (this other : snowflake) : Bool := other.value == this.value

/-- `snowflake::operator==(const uint64_t&)`: `other == value`. -/
def snowflake.eq_u64 (this : snowflake) (other : Nat) : Bool := other == this.value

/-- `std::hash<dpp::snowflake_t<void>>::operator()`: delegates to
`std::hash<uint64_t>` on the stored value; the standard-library hash is an
arbitrary deterministic function, passed here as a parameter. -/
def snowflake.hash (stdHashUInt64 : Nat → Nat) (s : snowflake) : Nat :=
  stdHashUInt64 s.value

/-- `snowflake::get_creation_time()`: `((value >> 22) + 1420070400000) / 1000.0`.
The numerator is below 2^53, so the C++ `double` holds it exactly; we model
the computation with exact rationals. -/
def snowflake.get_creation_time (s : snowflake) : ℚ :=
  ((s.value >>> 22 : Nat) + 1420070400000 : ℚ) / 1000

/-- `snowflake::get_worker_id()`: `(value & 0x3E0000) >> 17`. -/
def snowflake.get_worker_id (s : snowflake) : Nat :=
  (s.value &&& 0x3E0000) >>> 17

/-- `snowflake::get_process_id()`: `(value & 0x1F000) >> 12`. -/
def snowflake.get_process_id (s : snowflake) : Nat :=
  (s.value &&& 0x1F000) >>> 12

/-- `snowflake::get_increment()`: `value & 0xFFF`. -/
def snowflake.get_increment (s : snowflake) : Nat :=
  s.value &&& 0xFFF

/-- Digit-rendering loop of `std::to_string(uint64_t)` (fuel-based so that it
is structurally recursive; `v + 1` units of fuel always suffice). -/
def to_chars_go : Nat → Nat → List Char → List Char
  | 0, _, acc => acc
  | fuel + 1, n, acc =>
    if n < 10 then Char.ofNat (48 + n) :: acc
    else to_chars_go fuel (n / 10) (Char.ofNat (48 + n % 10) :: acc)

/-- `std::to_string(uint64_t)`: the base-10 decimal text of the value. -/
def u64_to_string (v : Nat) : List Char :=
  to_chars_go (v + 1) v []

/-- `snowflake::operator nlohmann::json()`: returns `std::to_string(value)`,
a decimal string (Discord transfers snowflakes as strings). -/
def snowflake.to_json (s : snowflake) : List Char :=
  u64_to_string s.value

/-- Entity-category tags used as template arguments of `snowflake_t<T>`
(`void` = the untyped `dpp::snowflake`; `guild`, `role`, and further entity
kinds such as `user` and `channel` stand for the tag types of the library). -/
inductive category where
  | untyped
  | guild
  | role
  | user
  | channel
deriving DecidableEq

/-- The `enable_if` condition of the cross-category converting constructor
`snowflake_t<T>::snowflake_t(const snowflake_t<U>&)`:
`std::is_same_v<U, void> || std::is_same_v<T, role> && std::is_same_v<U, guild>`.
It decides (at compile time) whether a category-`u` identifier converts to
category `t`. -/
def conv_allowed (t u : category) : Bool :=
  (u = category.untyped) || ((t = category.role) && (u = category.guild))

/-- Body of the converting constructor: it forwards
`static_cast<uint64_t>(value)` to the base constructor, so the raw value is
copied unchanged. -/
def snowflake_conv (value : Nat) : Nat := value

/-- `dpp::managed<T>` together with the state a concrete derived entity
carries: the base class itself stores only the typed snowflake `id`; `rest`
models every other field of the derived entity (`α` is that state's type). -/
structure managed (α : Type) where
  id : snowflake
  rest : α

/-- `managed<T>::operator==`: `id == other.id`, delegating to snowflake
equality; derived entities inherit it, so only `id` is compared. -/
def managed.eq {α : Type} (this other : managed α) : Bool :=
  snowflake.eq this.id other.id

/-- `managed<T>::operator!=`: `!(id == other.id)`. -/
def managed.neq {α : Type} (this other : managed α) : Bool :=
  !(snowflake.eq this.id other.id)

/-- `managed<T>::get_creation_time()`: delegates to the id's accessor. -/
def managed.get_creation_time {α : Type} (m : managed α) : ℚ :=
  m.id.get_creation_time

/-! General lemmas about the parse pipeline. -/

lemma is_ascii_digit_facts {c : Char} (h : is_ascii_digit c = true) :
    is_cspace c = false ∧ c.toNat ≠ 45 ∧ c.toNat ≠ 43 := by
  simp only [is_ascii_digit, Bool.and_eq_true, decide_eq_true_eq] at h
  refine ⟨?_, by omega, by omega⟩
  simp only [is_cspace, Bool.or_eq_false_iff, decide_eq_false_iff_not]
  omega

lemma takeWhile_all_append {α : Type} (p : α → Bool) :
    ∀ (ds rest : List α), (∀ c ∈ ds, p c = true) →
      (∀ r, rest.head? = some r → p r = false) →
      (ds ++ rest).takeWhile p = ds := by
  intro ds
  induction ds with
  | nil =>
    intro rest _ hr
    cases rest with
    | nil => rfl
    | cons r rs => simp [List.takeWhile_cons, hr r rfl]
  | cons c cs ih =>
    intro rest hds hr
    have hc : p c = true := hds c (by simp)
    simp [List.takeWhile_cons, hc, ih rest (fun x hx => hds x (by simp [hx])) hr]

/-- `std::stoull` on a string made of a nonempty all-digit run followed by a
remainder that does not start with a digit: the run alone is parsed. -/
lemma stoull_digits (ds rest : List Char) (hne : ds ≠ [])
    (hds : ∀ c ∈ ds, is_ascii_digit c = true)
    (hr : ∀ r, rest.head? = some r → is_ascii_digit r = false) :
    stoull (ds ++ rest) =
      if UINT64_MAX < digits_to_nat ds then none else some (digits_to_nat ds) := by
  obtain ⟨c, cs, rfl⟩ : ∃ c cs, ds = c :: cs := by
    cases ds with
    | nil => exact absurd rfl hne
    | cons c cs => exact ⟨c, cs, rfl⟩
  have hc := is_ascii_digit_facts (hds c (by simp))
  have hdrop : drop_leading_space ((c :: cs) ++ rest) = (c :: cs) ++ rest := by
    simp [drop_leading_space, List.dropWhile_cons, hc.1]
  have hsign : split_sign ((c :: cs) ++ rest) = (false, (c :: cs) ++ rest) := by
    simp [split_sign, hc.2.1, hc.2.2]
  have hrun : digit_run ((c :: cs) ++ rest) = c :: cs := by
    simpa [digit_run] using takeWhile_all_append is_ascii_digit (c :: cs) rest hds hr
  simp only [stoull, hdrop, hsign, hrun]
  simp

/-- `std::stoull` throws exactly when there is no leading digit run (after
whitespace and sign) or that run's magnitude exceeds `ULLONG_MAX`. -/
lemma stoull_eq_none_iff (s : List Char) :
    stoull s = none ↔
      (digit_run (split_sign (drop_leading_space s)).2 = []
        ∨ UINT64_MAX < digits_to_nat (digit_run (split_sign (drop_leading_space s)).2)) := by
  simp only [stoull]
  by_cases h1 : digit_run (split_sign (drop_leading_space s)).2 = []
  · simp [h1]
  · by_cases h2 : UINT64_MAX < digits_to_nat (digit_run (split_sign (drop_leading_space s)).2)
    · simp [h1, h2]
    · by_cases h3 : (split_sign (drop_leading_space s)).1 <;> simp [h1, h2, h3]

/-- C1 counterexample: the string `123abc` contains non-digit characters,
yet construction from it stores 123, not the empty identifier — `std::stoull`
parses the leading digit run and ignores the trailing characters, so the
claim "any string containing non-digit characters yields the empty
identifier" is false. -/
theorem parse_nondigit_nonempty_counterexample :
    (∃ c ∈ ['1', '2', '3', 'a', 'b', 'c'], is_ascii_digit c = false)
    ∧ (snowflake.ofString ['1', '2', '3', 'a', 'b', 'c']).empty = false
    ∧ (snowflake.ofString ['1', '2', '3', 'a', 'b', 'c']).value = 123 := by
  refine ⟨⟨'a', by simp, by decide⟩, by decide, by decide⟩

/-- C1 (amended): construction from text (and likewise assignment from text)
stores the empty identifier (value 0) whenever the input is empty, has no
leading digit run after the optional whitespace and sign (in particular when
it starts with a non-digit character), or has a leading digit run whose
magnitude exceeds 2^64-1; the fallback is silent and parsing is total (the
embedding is a total function — no error is ever signalled). -/
theorem parse_failure_silent_zero (x : snowflake) (s : List Char)
    (h : digit_run (split_sign (drop_leading_space s)).2 = []
        ∨ UINT64_MAX < digits_to_nat (digit_run (split_sign (drop_leading_space s)).2)) :
    (snowflake.ofString s).value = 0 ∧ (snowflake.assign_string x s).value = 0 := by
  have hn : stoull s = none := (stoull_eq_none_iff s).mpr h
  exact ⟨by simp [snowflake.ofString, hn], by simp [snowflake.assign_string, hn]⟩

/-- Witness for the amended C1: the empty string and an all-letters string
both construct and assign to the empty identifier. -/
theorem parse_failure_silent_zero_witness :
    (snowflake.ofString ['a', 'b']).value = 0
    ∧ (snowflake.assign_string ⟨99⟩ ['a', 'b']).value = 0 :=
  parse_failure_silent_zero ⟨99⟩ ['a', 'b'] (by decide)

/-- C2: construction from a nonempty all-digit string whose value fits in 64
bits stores exactly that value; construction from a 64-bit integer stores it
verbatim; `empty()` is true iff the stored value is 0. -/
theorem construction_stores_exact_value :
    (∀ s : List Char, s ≠ [] → (∀ c ∈ s, is_ascii_digit c = true) →
        digits_to_nat s ≤ UINT64_MAX → (snowflake.ofString s).value = digits_to_nat s)
    ∧ (∀ n : Nat, n < 2 ^ 64 → (snowflake.ofUInt64 n).value = n)
    ∧ (∀ s : snowflake, s.empty = true ↔ s.value = 0) := by
  refine ⟨?_, fun n _ => rfl, fun s => by simp [snowflake.empty]⟩
  intro s hne hds hle
  have h := stoull_digits s [] hne hds (by intro r hr; simp at hr)
  rw [List.append_nil] at h
  rw [if_neg (by omega)] at h
  simp [snowflake.ofString, h]

/-- Witness for C2: the digit string `709` constructs to value 709, and the
integer 5 constructs to value 5. -/
theorem construction_stores_exact_value_witness :
    (snowflake.ofString ['7', '0', '9']).value = digits_to_nat ['7', '0', '9']
    ∧ (snowflake.ofUInt64 5).value = 5 :=
  ⟨construction_stores_exact_value.1 ['7', '0', '9'] (by decide) (by decide) (by decide),
    construction_stores_exact_value.2.1 5 (by decide)⟩

/-- C10: textual construction falls back to 0 only when `stoull` fails (no
leading digit run, or magnitude out of range); a leading digit run with
trailing non-digit characters is parsed and the trailing characters are
ignored; concretely, `123abc` stores 123, `-1` stores 2^64 - 1 by unsigned
wraparound, and a whitespace-and-sign-prefixed run such as ` +42x` stores
42. -/
theorem parse_leading_run_semantics :
    (∀ ds rest : List Char, ds ≠ [] → (∀ c ∈ ds, is_ascii_digit c = true) →
        (∀ r, rest.head? = some r → is_ascii_digit r = false) →
        digits_to_nat ds ≤ UINT64_MAX →
        (snowflake.ofString (ds ++ rest)).value = digits_to_nat ds)
    ∧ (∀ s : List Char, (snowflake.ofString s).value = 0 →
        stoull s = none ∨ stoull s = some 0)
    ∧ (snowflake.ofString ['1', '2', '3', 'a', 'b', 'c']).value = 123
    ∧ (snowflake.ofString ['-', '1']).value = 2 ^ 64 - 1
    ∧ (snowflake.ofString [' ', '+', '4', '2', 'x']).value = 42 := by
  refine ⟨?_, ?_, by decide, by decide, by decide⟩
  · intro ds rest hne hds hr hle
    have h := stoull_digits ds rest hne hds hr
    rw [if_neg (by omega)] at h
    simp [snowflake.ofString, h]
  · intro s h0
    cases hs : stoull s with
    | none => exact Or.inl rfl
    | some v =>
      right
      simp [snowflake.ofString, hs] at h0
      exact congrArg some h0

/-- Witness for C10: the run `4` followed by `z` parses to 4, and the
all-letters string `a` makes `stoull` fail. -/
theorem parse_leading_run_semantics_witness :
    (snowflake.ofString (['4'] ++ ['z'])).value = digits_to_nat ['4']
    ∧ (stoull ['a'] = none ∨ stoull ['a'] = some 0) :=
  ⟨parse_leading_run_semantics.1 ['4'] ['z'] (by decide) (by decide)
      (by intro r hr; simp at hr; subst hr; decide) (by decide),
    parse_leading_run_semantics.2.1 ['a'] (by decide)⟩
/-! Bit-field extraction lemmas for the decoding accessors. -/

lemma mask31_extract (v k : Nat) : (v &&& (31 <<< k)) >>> k = v / 2 ^ k % 32 := by
  have h : v / 2 ^ k % 32 = (v >>> k) &&& (2 ^ 5 - 1) := by
    rw [Nat.and_pow_two_sub_one_eq_mod, Nat.shiftRight_eq_div_pow]
  rw [h]
  apply Nat.eq_of_testBit_eq
  intro j
  simp only [Nat.testBit_shiftRight, Nat.testBit_and, Nat.testBit_shiftLeft]
  have h1 : (decide (k + j ≥ k)) = true := by simp
  have h2 : k + j - k = j := by omega
  have h3 : (2 ^ 5 - 1 : Nat) = 31 := by norm_num
  rw [h1, h2, h3, Bool.true_and]

lemma or_fields_eq_add (t w p i : Nat) (hw : w < 32) (hp : p < 32) (hi : i < 4096) :
    (t <<< 22) ||| (w <<< 17) ||| (p <<< 12) ||| i
      = 2 ^ 22 * t + 2 ^ 17 * w + 2 ^ 12 * p + i := by
  rw [Nat.shiftLeft_eq, Nat.shiftLeft_eq, Nat.shiftLeft_eq]
  rw [Nat.mul_comm t, Nat.mul_comm w, Nat.mul_comm p]
  rw [← Nat.mul_add_lt_is_or (show 2 ^ 17 * w < 2 ^ 22 by omega) t]
  have e1 : 2 ^ 22 * t + 2 ^ 17 * w = 2 ^ 17 * (2 ^ 5 * t + w) := by ring
  rw [e1, ← Nat.mul_add_lt_is_or (show 2 ^ 12 * p < 2 ^ 17 by omega) (2 ^ 5 * t + w)]
  have e2 : 2 ^ 17 * (2 ^ 5 * t + w) + 2 ^ 12 * p
      = 2 ^ 12 * (2 ^ 5 * (2 ^ 5 * t + w) + p) := by ring
  rw [e2, ← Nat.mul_add_lt_is_or (show i < 2 ^ 12 by omega) (2 ^ 5 * (2 ^ 5 * t + w) + p)]

/-- C3: for every timestamp field t and every worker id w < 32, process id
p < 32, increment i < 4096, decoding the 64-bit identifier whose raw value is
`(t << 22) | (w << 17) | (p << 12) | i` (computed in `uint64_t` arithmetic,
i.e. mod 2^64) yields worker id w, process id p, and increment i. -/
theorem decode_roundtrip (t w p i : Nat) (hw : w < 32) (hp : p < 32) (hi : i < 4096) :
    snowflake.get_worker_id ⟨((t <<< 22) ||| (w <<< 17) ||| (p <<< 12) ||| i) % 2 ^ 64⟩ = w
    ∧ snowflake.get_process_id ⟨((t <<< 22) ||| (w <<< 17) ||| (p <<< 12) ||| i) % 2 ^ 64⟩ = p
    ∧ snowflake.get_increment ⟨((t <<< 22) ||| (w <<< 17) ||| (p <<< 12) ||| i) % 2 ^ 64⟩ = i := by
  rw [or_fields_eq_add t w p i hw hp hi]
  refine ⟨?_, ?_, ?_⟩
  · show ((2 ^ 22 * t + 2 ^ 17 * w + 2 ^ 12 * p + i) % 2 ^ 64 &&& 0x3E0000) >>> 17 = w
    have hm : (0x3E0000 : Nat) = 31 <<< 17 := by decide
    rw [hm, mask31_extract]
    omega
  · show ((2 ^ 22 * t + 2 ^ 17 * w + 2 ^ 12 * p + i) % 2 ^ 64 &&& 0x1F000) >>> 12 = p
    have hm : (0x1F000 : Nat) = 31 <<< 12 := by decide
    rw [hm, mask31_extract]
    omega
  · show (2 ^ 22 * t + 2 ^ 17 * w + 2 ^ 12 * p + i) % 2 ^ 64 &&& 0xFFF = i
    have hm : (0xFFF : Nat) = 2 ^ 12 - 1 := by decide
    rw [hm, Nat.and_pow_two_sub_one_eq_mod]
    omega

/-- Witness for C3: decoding `(5 << 22) | (3 << 17) | (4 << 12) | 7` yields
worker 3, process 4, increment 7. -/
theorem decode_roundtrip_witness :
    snowflake.get_worker_id ⟨((5 <<< 22) ||| (3 <<< 17) ||| (4 <<< 12) ||| 7) % 2 ^ 64⟩ = 3
    ∧ snowflake.get_process_id ⟨((5 <<< 22) ||| (3 <<< 17) ||| (4 <<< 12) ||| 7) % 2 ^ 64⟩ = 4
    ∧ snowflake.get_increment ⟨((5 <<< 22) ||| (3 <<< 17) ||| (4 <<< 12) ||| 7) % 2 ^ 64⟩ = 7 :=
  decode_roundtrip 5 3 4 7 (by decide) (by decide) (by decide)

/-- C4: for every stored value, the creation-time accessor returns
`((v >> 22) + 1420070400000) / 1000` fractional seconds (modelled with exact
rationals: the numerator is below 2^53, so the C++ `double` represents it
exactly, and dividing by 1000 with round-to-nearest is monotone), hence the
result is never below the 2015-01-01T00:00:00 UTC epoch instant 1420070400;
and the identifier built from 175928847299117063 yields a creation time
strictly greater than that instant. -/
theorem creation_time_bounds :
    (∀ v : Nat, snowflake.get_creation_time ⟨v⟩
        = (((v >>> 22 : Nat) : ℚ) + 1420070400000) / 1000)
    ∧ (∀ v : Nat, (1420070400 : ℚ) ≤ snowflake.get_creation_time ⟨v⟩)
    ∧ (1420070400 : ℚ) < snowflake.get_creation_time ⟨175928847299117063⟩ := by
  refine ⟨fun v => rfl, fun v => ?_, ?_⟩
  · show (1420070400 : ℚ) ≤ (((v >>> 22 : Nat) : ℚ) + 1420070400000) / 1000
    rw [le_div_iff₀ (by norm_num : (0 : ℚ) < 1000)]
    have h : (0 : ℚ) ≤ ((v >>> 22 : Nat) : ℚ) := Nat.cast_nonneg _
    linarith
  · show (1420070400 : ℚ)
        < (((175928847299117063 >>> 22 : Nat) : ℚ) + 1420070400000) / 1000
    have h : (175928847299117063 : Nat) >>> 22 = 41944705796 := by
      rw [Nat.shiftRight_eq_div_pow]
    rw [h]
    norm_num

/-- C5: snowflake equality (both the snowflake-to-snowflake and the
snowflake-to-raw-integer forms) holds iff the raw 64-bit values are equal,
and equal snowflakes hash alike (the hash delegates to `std::hash<uint64_t>`,
an arbitrary deterministic function on the raw value). -/
theorem equality_iff_raw_and_hash_consistent :
    (∀ a b : snowflake, snowflake.eq a b = true ↔ a.value = b.value)
    ∧ (∀ (a : snowflake) (n : Nat), snowflake.eq_u64 a n = true ↔ a.value = n)
    ∧ (∀ (stdHashUInt64 : Nat → Nat) (a b : snowflake), snowflake.eq a b = true →
        snowflake.hash stdHashUInt64 a = snowflake.hash stdHashUInt64 b) := by
  refine ⟨fun a b => ?_, fun a n => ?_, fun f a b hab => ?_⟩
  · simp only [snowflake.eq, beq_iff_eq]
    exact eq_comm
  · simp only [snowflake.eq_u64, beq_iff_eq]
    exact eq_comm
  · simp only [snowflake.eq, beq_iff_eq] at hab
    simp [snowflake.hash, hab]

/-- Witness for C5: two snowflakes holding 7 compare equal and hash alike
under the identity as the standard hash. -/
theorem equality_iff_raw_and_hash_consistent_witness :
    (snowflake.mk 7).value = (snowflake.mk 7).value
    ∧ snowflake.hash (fun n => n) ⟨7⟩ = snowflake.hash (fun n => n) ⟨7⟩ :=
  ⟨(equality_iff_raw_and_hash_consistent.1 ⟨7⟩ ⟨7⟩).mp (by decide),
    equality_iff_raw_and_hash_consistent.2.2 (fun n => n) ⟨7⟩ ⟨7⟩ (by decide)⟩

/-- C6: the less-than comparison holds iff the left raw 64-bit value is
numerically smaller, and the resulting order is total (any two snowflakes
are related or have equal raw values) and irreflexive — the order on
snowflakes is exactly the raw unsigned integer order, with no separate
tie-break rule. -/
theorem less_than_iff_raw_order :
    (∀ a b : snowflake, snowflake.lt a b = true ↔ a.value < b.value)
    ∧ (∀ a b : snowflake,
        snowflake.lt a b = true ∨ snowflake.lt b a = true ∨ a.value = b.value)
    ∧ (∀ a : snowflake, snowflake.lt a a = false) := by
  refine ⟨fun a b => by simp [snowflake.lt], fun a b => ?_, fun a => by simp [snowflake.lt]⟩
  simp only [snowflake.lt, decide_eq_true_eq]
  omega

/-- C7: two identified-entity instances of the same entity kind are equal iff
their stored id values are equal, whatever other state the concrete entity
carries; `operator!=` is exactly the negation of `operator==`; and two
entities with the same id 5 but different extra fields compare equal. -/
theorem managed_equality_ignores_rest :
    (∀ (α : Type) (e1 e2 : managed α), managed.eq e1 e2 = true ↔ e1.id.value = e2.id.value)
    ∧ (∀ (α : Type) (e1 e2 : managed α), managed.neq e1 e2 = !(managed.eq e1 e2))
    ∧ managed.eq (managed.mk ⟨5⟩ (1 : Nat)) (managed.mk ⟨5⟩ (2 : Nat)) = true := by
  refine ⟨fun α e1 e2 => ?_, fun α e1 e2 => rfl, by decide⟩
  simp only [managed.eq, snowflake.eq, beq_iff_eq]
  exact eq_comm

/-- C8: the `enable_if` guard of the cross-category converting constructor
accepts exactly the conversions from the untyped category to any category and
from guild to role — every other tagged-to-tagged pair fails the guard, i.e.
is rejected at compile time — and the sanctioned conversions copy the raw
64-bit value unchanged. -/
theorem conversion_whitelist_and_value_preserved :
    (∀ t u : category, conv_allowed t u = true ↔
        (u = category.untyped ∨ (u = category.guild ∧ t = category.role)))
    ∧ (∀ v : Nat, snowflake_conv v = v) := by
  refine ⟨fun t u => ?_, fun v => rfl⟩
  cases t <;> cases u <;> simp [conv_allowed]

/-! Lemmas about the decimal rendering loop. -/

lemma to_chars_go_append (fuel : Nat) : ∀ (n : Nat) (acc : List Char),
    to_chars_go fuel n acc = to_chars_go fuel n [] ++ acc := by
  induction fuel with
  | zero => intro n acc; rfl
  | succ f ih =>
    intro n acc
    by_cases h : n < 10
    · simp [to_chars_go, h]
    · simp only [to_chars_go, if_neg h]
      rw [ih (n / 10) (Char.ofNat (48 + n % 10) :: acc),
        ih (n / 10) [Char.ofNat (48 + n % 10)]]
      simp

lemma char_ofNat_digit {d : Nat} (hd : d < 10) :
    (Char.ofNat (48 + d)).toNat = 48 + d ∧ is_ascii_digit (Char.ofNat (48 + d)) = true := by
  interval_cases d <;> exact ⟨by decide, by decide⟩

lemma to_chars_go_spec : ∀ (fuel n : Nat), n < fuel →
    (∀ c ∈ to_chars_go fuel n [], is_ascii_digit c = true)
    ∧ digits_to_nat (to_chars_go fuel n []) = n := by
  intro fuel
  induction fuel with
  | zero => intro n h; omega
  | succ f ih =>
    intro n hn
    by_cases h : n < 10
    · refine ⟨?_, ?_⟩
      · intro c hc
        simp only [to_chars_go, if_pos h, List.mem_singleton] at hc
        rw [hc]
        exact (char_ofNat_digit h).2
      · simp only [to_chars_go, if_pos h, digits_to_nat, List.foldl_cons, List.foldl_nil]
        rw [(char_ofNat_digit h).1]
        omega
    · have hdiv : n / 10 < f := by omega
      have ih2 := ih (n / 10) hdiv
      have hm : n % 10 < 10 := Nat.mod_lt _ (by norm_num)
      refine ⟨?_, ?_⟩
      · intro c hc
        simp only [to_chars_go, if_neg h] at hc
        rw [to_chars_go_append] at hc
        simp only [List.mem_append, List.mem_singleton] at hc
        rcases hc with hc | hc
        · exact ih2.1 c hc
        · rw [hc]
          exact (char_ofNat_digit hm).2
      · simp only [to_chars_go, if_neg h]
        rw [to_chars_go_append, digits_to_nat, List.foldl_append]
        have hv : (to_chars_go f (n / 10) []).foldl (fun a c => a * 10 + (c.toNat - 48)) 0
            = n / 10 := ih2.2
        rw [hv]
        simp only [List.foldl_cons, List.foldl_nil]
        rw [(char_ofNat_digit hm).1]
        omega

/-- C9: the wire representation is the exact base-10 decimal text of the
stored 64-bit value — every character is a decimal digit and reading the
digits back yields the value (so there is no re-encoding or truncation) —
and for the value 123456789012345678 it is exactly the text
`123456789012345678`. -/
theorem wire_representation_decimal :
    (∀ v : Nat, (∀ c ∈ snowflake.to_json ⟨v⟩, is_ascii_digit c = true)
        ∧ digits_to_nat (snowflake.to_json ⟨v⟩) = v)
    ∧ snowflake.to_json ⟨123456789012345678⟩
        = ['1', '2', '3', '4', '5', '6', '7', '8', '9', '0',
            '1', '2', '3', '4', '5', '6', '7', '8'] := by
  exact ⟨fun v => to_chars_go_spec (v + 1) v (Nat.lt_succ_self v), by decide⟩

/-- Witness for C9: in the wire text of 123, the member character `1` is a
digit, and the digits read back to 123. -/
theorem wire_representation_decimal_witness :
    is_ascii_digit '1' = true ∧ digits_to_nat (snowflake.to_json ⟨123⟩) = 123 :=
  ⟨(wire_representation_decimal.1 123).1 '1' (by decide),
    (wire_representation_decimal.1 123).2⟩

